import Mathlib

/-!
Verification of the drest data-mapping and content-negotiation layer
(`drest/datamapper.py`, with `drest/http.py` and `drest/__init__.py`).

The development shallowly embeds the Python source: Python values that flow
through the mappers become the inductive type `PyVal`; the SAX-driven XML
decoder `xml2obj` becomes a state machine over explicit builder states; the
mapper registry and the negotiation entry points become pure functions over a
`Manager` record; code that raises becomes `Except PyErr`.  External library
calls (`decimal.Decimal`, `simplejson`, `xml.sax` event dispatch) are modelled
from their documented behaviour, as the source relies on them.
-/

namespace Drest

/-! ### Python `decimal.Decimal`

The XML decoder and the arbitrary-precision JSON mapper build
`decimal.Decimal` values.  A decimal is a sign, a coefficient (a digit
string, which we keep as a `Nat`, so leading zeros are dropped exactly as
Python normalises them) and an exponent; the special values infinity and NaN
also exist (we drop NaN diagnostic payloads, which never arise here). -/

inductive Dec where
  | finite (neg : Bool) (coeff : Nat) (exp : Int)
  | infinite (neg : Bool)
  | nan
deriving DecidableEq, Repr

/-- Python whitespace for `str.strip()` and the `\s` class: space, tab,
newline, carriage return, vertical tab, form feed. -/
def pyIsSpace (c : Char) : Bool :=
  c = ' ' || c = '\t' || c = '\n' || c = '\r' || c = '\x0b' || c = '\x0c'

/-- Python `str.strip()` (no arguments): drop leading and trailing
whitespace. -/
def pyStrip (s : String) : String :=
  ⟨(s.toList.dropWhile pyIsSpace).reverse.dropWhile pyIsSpace |>.reverse⟩

def isDigitChar (c : Char) : Bool := '0' ≤ c ∧ c ≤ '9'

def digitsToNat (ds : List Char) : Nat :=
  ds.foldl (fun acc c => acc * 10 + (c.toNat - '0'.toNat)) 0

/-- Case-insensitive match of a list of characters against a lowercase
keyword. -/
def matchKeyword (cs : List Char) (kw : List Char) : Option (List Char) :=
  match cs, kw with
  | rest, [] => some rest
  | c :: rest, k :: ks => if c.toLower = k then matchKeyword rest ks else none
  | [], _ :: _ => none

/-- Modelled from the library: the numeric-string grammar accepted by the
Python 2.7 `decimal.Decimal` constructor — optional surrounding whitespace,
an optional sign, then either a number with at least one digit (possibly
empty integer part, optional fraction, optional `E` exponent with mandatory
digits), an `Inf`/`Infinity`, or an (optionally signaling) `NaN` with an
optional digit payload; anything else raises `InvalidOperation`. -/
def parseDec (s : String) : Option Dec :=
  let cs := (s.toList.dropWhile pyIsSpace).reverse.dropWhile pyIsSpace |>.reverse
  let (neg, cs) :=
    match cs with
    | '+' :: r => (false, r)
    | '-' :: r => (true, r)
    | r => (false, r)
  match matchKeyword cs ['i', 'n', 'f'] with
  | some rest =>
      if rest = [] then some (.infinite neg)
      else if (matchKeyword rest ['i', 'n', 'i', 't', 'y']) = some [] then
        some (.infinite neg)
      else none
  | none =>
    let csNan := match matchKeyword cs ['s'] with
      | some r => if (matchKeyword r ['n', 'a', 'n']).isSome then matchKeyword r ['n', 'a', 'n'] else none
      | none => matchKeyword cs ['n', 'a', 'n']
    match csNan with
    | some rest => if rest.all isDigitChar then some .nan else none
    | none =>
      -- number with at least one digit: lookahead `\d` or `\.\d`
      let intPart := cs.takeWhile isDigitChar
      let afterInt := cs.dropWhile isDigitChar
      let (fracPart, afterFrac) :=
        match afterInt with
        | '.' :: r => (some (r.takeWhile isDigitChar), r.dropWhile isDigitChar)
        | r => (none, r)
      let okStart :=
        match intPart, fracPart with
        | _ :: _, _ => true
        | [], some (_ :: _) => true
        | _, _ => false
      if okStart then
        let (expVal, afterExp) :=
          match afterFrac with
          | 'e' :: r | 'E' :: r =>
            let (eneg, r') := match r with
              | '+' :: r2 => (false, r2)
              | '-' :: r2 => (true, r2)
              | r2 => (false, r2)
            let eds := r'.takeWhile isDigitChar
            if eds = [] then (none, afterFrac)
            else (some (if eneg then -(digitsToNat eds : Int) else (digitsToNat eds : Int)),
                  r'.dropWhile isDigitChar)
          | r => (some 0, r)
        match expVal with
        | none => none
        | some e =>
          if afterExp = [] then
            let frac := fracPart.getD []
            some (.finite neg (digitsToNat (intPart ++ frac)) (e - frac.length))
          else none
      else none

/-- Digit string of a coefficient, mirroring Python keeping `"0"` for zero. -/
def coeffDigits (c : Nat) : List Char := (Nat.repr c).toList

/-- Modelled from the library: Python `Decimal.__str__` (the to-scientific-string
conversion): positional form when the exponent is at most zero and the
adjusted exponent is at least `-6`, otherwise exponent form with a signed
`E`. -/
def decStr (d : Dec) : String :=
  match d with
  | .infinite neg => (if neg then "-" else "") ++ "Infinity"
  | .nan => "NaN"
  | .finite neg c e =>
    let ds := coeffDigits c
    let leftdigits : Int := e + ds.length
    let dotplace : Int := if e ≤ 0 ∧ leftdigits > -6 then leftdigits else 1
    let body : List Char :=
      if dotplace ≤ 0 then
        '0' :: '.' :: List.replicate (-dotplace).toNat '0' ++ ds
      else if dotplace ≥ ds.length then
        ds ++ List.replicate (dotplace - ds.length).toNat '0'
      else
        ds.take dotplace.toNat ++ '.' :: ds.drop dotplace.toNat
    let exppart : String :=
      if leftdigits = dotplace then ""
      else "E" ++ (if leftdigits - dotplace ≥ 0 then "+" else "-") ++
        Nat.repr (leftdigits - dotplace).natAbs
    (if neg then "-" else "") ++ String.mk body ++ exppart

/-! ### Python values

`PyVal` covers every Python value the mappers exchange: `None`, booleans,
ints, `Decimal`s, binary floats, strings, lists and dicts.  Dicts are
insertion-ordered association lists with unique keys.  Binary floats are kept
opaque as their source literal: no claim in this development observes a float
value, only that a float is not a `Decimal`. -/

inductive PyVal where
  | none
  | bool (b : Bool)
  | int (n : Int)
  | dec (d : Dec)
  | float (lit : String)
  | str (s : String)
  | list (items : List PyVal)
  | dict (entries : List (String × PyVal))
deriving Repr

/-- Python truthiness of the values above.  `None`, `False`, zero (a zero
`Decimal` with any exponent included), the empty string and empty containers
are falsy.  (Floats are opaque here and never reach a truthiness test in this
development.) -/
def truthy : PyVal → Bool
  | .none => false
  | .bool b => b
  | .int n => n ≠ 0
  | .dec (.finite _ 0 _) => false
  | .dec _ => true
  | .float _ => true
  | .str s => s ≠ ""
  | .list xs => ¬ xs.isEmpty
  | .dict es => ¬ es.isEmpty

/-- Dict lookup (`d[k]` succeeding, `None` when the key is absent models the
`KeyError` path at the call site). -/
def dictGet (v : PyVal) (k : String) : Option PyVal :=
  match v with
  | .dict es => (es.find? (fun p => p.1 == k)).map (·.2)
  | _ => Option.none

/-! ### The XML structural decoder `xml2obj`

The source drives a `xml.sax` `ContentHandler` (`TreeBuilder`) over the
document.  We model a well-formed XML document as a tree of elements and
character data; `xml.sax` fires `startElement name attrs`, the events of the
children in document order, then `endElement name` for each element, and
`characters` for each text node, which is exactly the traversal `runNode`
performs on the tree. -/

inductive Node where
  | text (s : String)
  | elem (name : String) (attrs : List (String × String)) (children : List Node)
deriving Repr

/-- Source `xml2obj.element_to_py`: merge a closed child element
(`name`/`value`) into its parent container `node`.  A list parent appends
(`node.append(value)` succeeding).  A dict parent stores the value under
`name` when the name is new; when the name is already present, the source
rebinds `node = node.values() + [value]` — the whole parent mapping is
replaced by the list of its values followed by the new value.  A scalar
parent never occurs (parents are created as dicts and only ever turned into
lists); Python would raise there, and we return the node unchanged. -/
def element_to_py (node : PyVal) (name : String) (value : PyVal) : PyVal :=
  match node with
  | .list xs => .list (xs ++ [value])
  | .dict es =>
      if es.any (fun p => p.1 == name) then
        .list (es.map (·.2) ++ [value])
      else
        .dict (es ++ [(name, value)])
  | other => other

/-- Source `TreeBuilder.endElement`, text-only branch: the concatenated,
stripped text fragments as a `Decimal` when the numeric conversion succeeds,
otherwise the stripped string itself (`text or ''` — the empty string when no
text accumulated). -/
def leafValue (parts : List String) : PyVal :=
  let text := pyStrip (String.join parts)
  match parseDec text with
  | some d => .dec d
  | Option.none => .str text

/-- The mutable state of the source `TreeBuilder`: the stack of suspended
`(current, text_parts)` frames, the in-progress container of the innermost
open element, and its accumulated text fragments.  The bottom of the stack
holds `self.root`. -/
structure BState where
  stack : List (PyVal × List String)
  current : PyVal
  text_parts : List String
deriving Repr

/-- Source `TreeBuilder.startElement`: push the current frame, start a fresh
empty mapping and fragment list.  The `attrs` argument of the handler is
ignored by the source, so it does not appear here. -/
def startElement (st : BState) : BState :=
  { stack := (st.current, st.text_parts) :: st.stack
    current := .dict []
    text_parts := [] }

/-- Source `TreeBuilder.characters`: append the fragment. -/
def characters (st : BState) (content : String) : BState :=
  { st with text_parts := st.text_parts ++ [content] }

/-- The value a closing element contributes: its container when it
accumulated children (truthy `self.current`), else its text-only leaf
value. -/
def objOf (st : BState) : PyVal :=
  if truthy st.current then st.current else leafValue st.text_parts

/-- Source `TreeBuilder.endElement`: compute the element value, pop the
parent frame, merge via `element_to_py`.  A pop from an empty stack would be
a Python `IndexError`; it never happens on the events of a well-formed
document, and we leave the state unchanged there. -/
def endElement (st : BState) (name : String) : BState :=
  match st.stack with
  | [] => st
  | (cur, tp) :: rest =>
      { stack := rest
        current := element_to_py cur name (objOf st)
        text_parts := tp }

mutual

/-- Feed the SAX events of one node to the builder. -/
def runNode (st : BState) : Node → BState
  | .text s => characters st s
  | .elem name _attrs children =>
      endElement (runNodes (startElement st) children) name

/-- Feed the SAX events of a list of sibling nodes, in document order. -/
def runNodes (st : BState) : List Node → BState
  | [] => st
  | n :: ns => runNodes (runNode st n) ns

end

/-- The initial `TreeBuilder` state: empty stack, `self.current = self.root`
an empty dict, no text fragments. -/
def initState : BState := { stack := [], current := .dict [], text_parts := [] }

/-- Source `xml2obj` on a well-formed document: run the builder over the
document events and return `builder.root`.  The root element closes by
merging into the (still empty) root mapping, which the final `current` then
holds, so the final `current` is exactly `builder.root`. -/
def xml2obj (doc : Node) : PyVal :=
  (runNode initState doc).current

mutual

/-- Erase every attribute of every element of a document. -/
def stripAttrsN : Node → Node
  | .text s => .text s
  | .elem name _attrs children => .elem name [] (stripAttrsL children)

/-- Erase attributes over a list of sibling nodes. -/
def stripAttrsL : List Node → List Node
  | [] => []
  | n :: ns => stripAttrsN n :: stripAttrsL ns

end

/-! ### The JSON library

`JsonMapper` and `JsonDecimalMapper` delegate to `simplejson.dumps` and
`simplejson.loads`; the following functions model those library calls.  The
two mappers differ in the `use_decimal` flag: with it, fractional and
exponent number literals are read back as exact `Decimal`s built from the
literal text; without it they become binary floats (opaque here).  Integer
literals become Python ints either way. -/

def lbrace : String := "\x7b"

def rbrace : String := "\x7d"

def lbraceC : Char := Char.ofNat 123

def rbraceC : Char := Char.ofNat 125

def jsonWsChar (c : Char) : Bool := c = ' ' || c = '\t' || c = '\n' || c = '\r'

def skipWs : List Char → List Char
  | [] => []
  | c :: r => if jsonWsChar c then skipWs r else c :: r

def hexVal (c : Char) : Option Nat :=
  if isDigitChar c then some (c.toNat - '0'.toNat)
  else if 'a' ≤ c ∧ c ≤ 'f' then some (c.toNat - 'a'.toNat + 10)
  else if 'A' ≤ c ∧ c ≤ 'F' then some (c.toNat - 'A'.toNat + 10)
  else Option.none

/-- Modelled from the library: a JSON string body after the opening quote, in
simplejson strict mode — raw control characters are rejected, the standard
escapes and `\uXXXX` are honoured.  (A `\uXXXX` escape naming a surrogate
code unit is not a valid Lean scalar; it is mapped to U+FFFD, which no claim
observes.)  Returns the decoded string and the input after the closing
quote. -/
def parseJStr : List Char → Option (List Char × List Char)
  | [] => Option.none
  | '"' :: rest => some ([], rest)
  | '\\' :: e :: rest =>
      match e with
      | '"' => (parseJStr rest).map (fun p => ('"' :: p.1, p.2))
      | '\\' => (parseJStr rest).map (fun p => ('\\' :: p.1, p.2))
      | '/' => (parseJStr rest).map (fun p => ('/' :: p.1, p.2))
      | 'b' => (parseJStr rest).map (fun p => ('\x08' :: p.1, p.2))
      | 'f' => (parseJStr rest).map (fun p => ('\x0c' :: p.1, p.2))
      | 'n' => (parseJStr rest).map (fun p => ('\n' :: p.1, p.2))
      | 'r' => (parseJStr rest).map (fun p => ('\r' :: p.1, p.2))
      | 't' => (parseJStr rest).map (fun p => ('\t' :: p.1, p.2))
      | 'u' =>
          match rest with
          | h1 :: h2 :: h3 :: h4 :: rest' =>
              match hexVal h1, hexVal h2, hexVal h3, hexVal h4 with
              | some a, some b, some c, some d =>
                  let n := ((a * 16 + b) * 16 + c) * 16 + d
                  let ch := if h : n.isValidChar then Char.ofNatAux n h else '�'
                  (parseJStr rest').map (fun p => (ch :: p.1, p.2))
              | _, _, _, _ => Option.none
          | _ => Option.none
      | _ => Option.none
  | c :: rest =>
      if c.toNat < 0x20 then Option.none
      else (parseJStr rest).map (fun p => (c :: p.1, p.2))

/-- Scan the integer part `-?(0|[1-9][0-9]*)` of a JSON number literal. -/
def scanJsonInt (cs : List Char) : Option (List Char × List Char) :=
  let (sgn, cs1) := match cs with
    | '-' :: r => (['-'], r)
    | r => (([] : List Char), r)
  match cs1 with
  | '0' :: r => some (sgn ++ ['0'], r)
  | c :: r =>
      if isDigitChar c ∧ c ≠ '0' then
        some (sgn ++ c :: r.takeWhile isDigitChar, r.dropWhile isDigitChar)
      else Option.none
  | [] => Option.none

/-- Scan a JSON number literal `-?(0|[1-9][0-9]*)(\.[0-9]+)?([eE][+-]?[0-9]+)?`.
Returns the literal, whether it is an integer literal, and the rest. -/
def scanJsonNumber (cs : List Char) : Option (List Char × Bool × List Char) :=
  match scanJsonInt cs with
  | Option.none => Option.none
  | some (intLit, rest) =>
    let (fracLit, rest1) : List Char × List Char :=
      match rest with
      | '.' :: r =>
          let ds := r.takeWhile isDigitChar
          if ds = [] then ([], rest) else ('.' :: ds, r.dropWhile isDigitChar)
      | _ => ([], rest)
    let (expLit, rest2) : List Char × List Char :=
      match rest1 with
      | 'e' :: r | 'E' :: r =>
          let (es, r') := match r with
            | '+' :: r2 => (['+'], r2)
            | '-' :: r2 => (['-'], r2)
            | r2 => (([] : List Char), r2)
          let ds := r'.takeWhile isDigitChar
          if ds = [] then ([], rest1)
          else ('e' :: es ++ ds, r'.dropWhile isDigitChar)
      | _ => ([], rest1)
    some (intLit ++ fracLit ++ expLit, fracLit = [] ∧ expLit = [], rest2)

/-- Integer value of an integer literal (optional minus sign, digits). -/
def intOfLit (cs : List Char) : Int :=
  match cs with
  | '-' :: ds => -(digitsToNat ds : Int)
  | ds => (digitsToNat ds : Int)

/-- Case-sensitive keyword match used by the JSON scanner. -/
def matchKw (cs : List Char) (kw : List Char) : Option (List Char) :=
  match cs, kw with
  | rest, [] => some rest
  | c :: rest, k :: ks => if c = k then matchKw rest ks else Option.none
  | [], _ :: _ => Option.none

mutual

/-- Modelled from the library: the simplejson scanner for one JSON value.
`useDec` is the `use_decimal` flag: fractional and exponent literals are
handed to `Decimal` with it and to `float` without it.  The constants
`NaN`, `Infinity` and `-Infinity` are accepted (simplejson default
`allow_nan`) and become floats in both modes. -/
def parseJsonVal (useDec : Bool) : Nat → List Char → Option (PyVal × List Char)
  | 0, _ => Option.none
  | fuel + 1, cs₀ =>
    let cs := skipWs cs₀
    match matchKw cs ['t', 'r', 'u', 'e'] with
    | some r => some (.bool true, r)
    | Option.none =>
    match matchKw cs ['f', 'a', 'l', 's', 'e'] with
    | some r => some (.bool false, r)
    | Option.none =>
    match matchKw cs ['n', 'u', 'l', 'l'] with
    | some r => some (.none, r)
    | Option.none =>
    match matchKw cs ['N', 'a', 'N'] with
    | some r => some (.float "NaN", r)
    | Option.none =>
    match matchKw cs ['I', 'n', 'f', 'i', 'n', 'i', 't', 'y'] with
    | some r => some (.float "Infinity", r)
    | Option.none =>
    match matchKw cs ['-', 'I', 'n', 'f', 'i', 'n', 'i', 't', 'y'] with
    | some r => some (.float "-Infinity", r)
    | Option.none =>
    match cs with
    | [] => Option.none
    | '"' :: r => (parseJStr r).map (fun p => (.str (String.mk p.1), p.2))
    | '[' :: r => parseJsonArr useDec fuel (skipWs r) []
    | c :: _ =>
        if c = lbraceC then parseJsonObj useDec fuel (skipWs cs.tail) []
        else
          (scanJsonNumber cs).map fun (lit, isInt, rest) =>
            if isInt then (.int (intOfLit lit), rest)
            else if useDec then
              match parseDec (String.mk lit) with
              | some d => (.dec d, rest)
              | Option.none => (.float (String.mk lit), rest)
            else (.float (String.mk lit), rest)

/-- Array elements after `[` (leading whitespace already skipped), with the
items accumulated so far. -/
def parseJsonArr (useDec : Bool) : Nat → List Char → List PyVal → Option (PyVal × List Char)
  | 0, _, _ => Option.none
  | fuel + 1, cs, acc =>
    match cs, acc with
    | ']' :: r, [] => some (.list [], r)
    | _, _ =>
      match parseJsonVal useDec fuel cs with
      | Option.none => Option.none
      | some (v, rest) =>
        match skipWs rest with
        | ']' :: r => some (.list (acc ++ [v]), r)
        | ',' :: r => parseJsonArr useDec fuel (skipWs r) (acc ++ [v])
        | _ => Option.none

/-- Object members after the opening brace (leading whitespace already
skipped).  Keys must be strings; a repeated key overwrites the earlier
value, as Python dict assignment does. -/
def parseJsonObj (useDec : Bool) : Nat → List Char → List (String × PyVal) → Option (PyVal × List Char)
  | 0, _, _ => Option.none
  | fuel + 1, cs, acc =>
    match cs, acc with
    | c :: r, [] =>
      if c = rbraceC then some (.dict [], r)
      else parseJsonMember useDec fuel cs acc
    | _, _ => parseJsonMember useDec fuel cs acc

/-- One `"key": value` member, then either the closing brace or a comma. -/
def parseJsonMember (useDec : Bool) : Nat → List Char → List (String × PyVal) → Option (PyVal × List Char)
  | 0, _, _ => Option.none
  | fuel + 1, cs, acc =>
    match cs with
    | '"' :: r =>
      match parseJStr r with
      | Option.none => Option.none
      | some (key, rest) =>
        match skipWs rest with
        | ':' :: r2 =>
          match parseJsonVal useDec fuel (skipWs r2) with
          | Option.none => Option.none
          | some (v, rest2) =>
            let k := String.mk key
            let acc' := if acc.any (fun p => p.1 == k)
              then acc.map (fun p => if p.1 == k then (k, v) else p)
              else acc ++ [(k, v)]
            match skipWs rest2 with
            | c :: r3 =>
              if c = rbraceC then some (.dict acc', r3)
              else if c = ',' then parseJsonObj useDec fuel (skipWs r3) acc'
              else Option.none
            | [] => Option.none
        | _ => Option.none
    | _ => Option.none

end

/-- Modelled from the library: `simplejson.loads` — scan one JSON value,
then require only whitespace to follow; any failure is the `ValueError` the
mapper turns into `BadRequest`.  The fuel is generous: every recursive call
of the scanner has consumed at least one input character beforehand. -/
def json_loads (useDec : Bool) (s : String) : Option PyVal :=
  match parseJsonVal useDec (2 * s.toList.length + 4) s.toList with
  | some (v, rest) => if skipWs rest = [] then some v else Option.none
  | Option.none => Option.none

/-- JSON string escaping with `ensure_ascii=False`: quote, backslash and the
control characters below 0x20 are escaped, everything else is emitted
literally. -/
def jsonEscChar (c : Char) : String :=
  if c = '"' then "\\\""
  else if c = '\\' then "\\\\"
  else if c = '\n' then "\\n"
  else if c = '\r' then "\\r"
  else if c = '\t' then "\\t"
  else if c = '\x08' then "\\b"
  else if c = '\x0c' then "\\f"
  else if c.toNat < 0x20 then
    "\\u00" ++ String.mk [(Nat.digitChar (c.toNat / 16)), (Nat.digitChar (c.toNat % 16))]
  else String.singleton c

def jsonDumpStr (s : String) : String :=
  "\"" ++ String.join (s.toList.map jsonEscChar) ++ "\""

/-- Indentation prefix: a newline and `n` spaces (simplejson with
`indent=4`). -/
def jsonNl (n : Nat) : String := "\n" ++ String.mk (List.replicate n ' ')

mutual

/-- Modelled from the library: `simplejson.dumps(..., indent=4,
ensure_ascii=False)` for one value at indentation level `ind`.  A `Decimal`
is emitted as its `str()` form (the source passes `use_decimal=True` in the
arbitrary-precision mapper; plain `dumps` also serialises decimals that
way). -/
def jsonDumpVal (ind : Nat) : PyVal → String
  | .none => "null"
  | .bool b => if b then "true" else "false"
  | .int n => if n < 0 then "-" ++ Nat.repr n.natAbs else Nat.repr n.natAbs
  | .dec d => decStr d
  | .float lit => lit
  | .str s => jsonDumpStr s
  | .list items =>
      match items with
      | [] => "[]"
      | _ => "[" ++ jsonNl (ind + 4) ++ jsonDumpList (ind + 4) items ++ jsonNl ind ++ "]"
  | .dict es =>
      match es with
      | [] => lbrace ++ rbrace
      | _ => lbrace ++ jsonNl (ind + 4) ++ jsonDumpEntries (ind + 4) es ++ jsonNl ind ++ rbrace

def jsonDumpList (ind : Nat) : List PyVal → String
  | [] => ""
  | [v] => jsonDumpVal ind v
  | v :: rest => jsonDumpVal ind v ++ "," ++ jsonNl ind ++ jsonDumpList ind rest

def jsonDumpEntries (ind : Nat) : List (String × PyVal) → String
  | [] => ""
  | [(k, v)] => jsonDumpStr k ++ ": " ++ jsonDumpVal ind v
  | (k, v) :: rest =>
      jsonDumpStr k ++ ": " ++ jsonDumpVal ind v ++ "," ++ jsonNl ind ++
        jsonDumpEntries ind rest

end

def json_dumps (v : PyVal) : String := jsonDumpVal 0 v

/-! ### The errors raised by the mapping layer

`errors.BadRequest` and `errors.NotAcceptable` come from the repository's
`errors` module (declared there, raised here); `typeError` stands for any
non-`ValueError` exception escaping a library call uncaught (for example
`simplejson.loads(None)`), and `keyError` for a failing dict subscript. -/

inductive PyErr where
  | badRequest (msg : String)
  | notAcceptable (msg : String)
  | typeError
  | keyError (k : String)
deriving DecidableEq, Repr

/-! ### Python string coercion and XML escaping for the encoder -/

/-- Modelled from the library: `django.utils.encoding.smart_unicode` /
`smart_str` on the values above — strings pass through, other scalars print
as Python does.  Containers would print via `repr`; the mappers only ever
reach this with scalars and no claim observes the container case, which we
render with a simple bracketed form. -/
def pyUnicodeOf : PyVal → String
  | .none => "None"
  | .bool b => if b then "True" else "False"
  | .int n => if n < 0 then "-" ++ Nat.repr n.natAbs else Nat.repr n.natAbs
  | .dec d => decStr d
  | .float lit => lit
  | .str s => s
  | .list _ => "[...]"
  | .dict _ => lbrace ++ "..." ++ rbrace

/-- `xml.sax.saxutils.escape`, used by the generator for character data. -/
def xmlEscape (s : String) : String :=
  String.join (s.toList.map fun c =>
    if c = '&' then "&amp;"
    else if c = '<' then "&lt;"
    else if c = '>' then "&gt;"
    else String.singleton c)

/-- Source `XmlMapper._list_item_element_name`: `"<key>_item"` with the key
defaulted to the empty string. -/
def list_item_element_name (key : Option String) : String :=
  (key.getD "") ++ "_item"

mutual

/-- Source `XmlMapper._to_xml`: lists emit one `<key_item>` element per item
(recursing with no key), dicts one element per entry (recursing with that
key), scalars emit escaped character data. -/
def to_xml (key : Option String) : PyVal → String
  | .list items => to_xml_items (list_item_element_name key) items
  | .dict es => to_xml_entries es
  | v => xmlEscape (pyUnicodeOf v)

def to_xml_items (elemname : String) : List PyVal → String
  | [] => ""
  | item :: rest =>
      "<" ++ elemname ++ ">" ++ to_xml Option.none item ++ "</" ++ elemname ++ ">" ++
        to_xml_items elemname rest

def to_xml_entries : List (String × PyVal) → String
  | [] => ""
  | (k, v) :: rest =>
      "<" ++ k ++ ">" ++ to_xml (some k) v ++ "</" ++ k ++ ">" ++ to_xml_entries rest

end

/-! ### The four codecs

Each mapper's `_parse_data` and `_format_data`, at the data level.  Raw
parse input is `Option String`: `Option.none` is Python `None`, and the
strings are already text (byte-level charset decoding is a library call the
model treats as the identity, so the `BadRequest('wrong charset')` branch of
`DataMapper._decode_data` does not arise). -/

def pyTruthyData : Option String → Bool
  | Option.none => false
  | some s => s ≠ ""

/-- Source `DataMapper._parse_data`: decode when the data is truthy, the
empty unicode string otherwise. -/
def DataMapper_parse_data (data : Option String) (_charset : String) : Except PyErr PyVal :=
  if pyTruthyData data then .ok (.str (data.getD "")) else .ok (.str "")

/-- Source `DataMapper._format_data`: encode truthy data, the empty string
otherwise. -/
def DataMapper_format_data (data : PyVal) (_charset : String) : String :=
  if truthy data then pyUnicodeOf data else ""

/-- Is the payload `None` or the empty string (the guard written in the
JSON and XML `_format_data` overrides)? -/
def isNoneOrEmptyStr : PyVal → Bool
  | .none => true
  | .str s => s = ""
  | _ => false

/-- Source `JsonMapper._parse_data`: `json.loads`, with `ValueError` turned
into `BadRequest`; a `None` argument makes the library raise a
`TypeError`, which is not caught. -/
def JsonMapper_parse_data (data : Option String) : Except PyErr PyVal :=
  match data with
  | Option.none => .error .typeError
  | some s =>
    match json_loads false s with
    | some v => .ok v
    | Option.none => .error (.badRequest "unable to parse data")

/-- Source `JsonMapper._format_data`: empty output for `None` or the empty
string, otherwise `json.dumps(data, indent=4, ensure_ascii=False)`. -/
def JsonMapper_format_data (data : PyVal) : String :=
  if isNoneOrEmptyStr data then "" else json_dumps data

/-- Source `JsonDecimalMapper._parse_data`: as the JSON mapper but with
`use_decimal=True`. -/
def JsonDecimalMapper_parse_data (data : Option String) : Except PyErr PyVal :=
  match data with
  | Option.none => .error .typeError
  | some s =>
    match json_loads true s with
    | some v => .ok v
    | Option.none => .error (.badRequest "unable to parse data")

/-- Source `JsonDecimalMapper._format_data`: as the JSON mapper but with
`use_decimal=True` (which changes nothing here, decimals being serialised by
`str` in both). -/
def JsonDecimalMapper_format_data (data : PyVal) : String :=
  if isNoneOrEmptyStr data then "" else json_dumps data

/-- Source `XmlMapper._parse_data` at the document level:
`xml2obj(data)['root']` — the decoded mapping subscripted with the literal
key `"root"`, a `KeyError` when that key is absent. -/
def XmlMapper_parse_data (doc : Node) : Except PyErr PyVal :=
  match dictGet (xml2obj doc) "root" with
  | some v => .ok v
  | Option.none => .error (.keyError "root")

/-- Source `XmlMapper._format_data`: empty output for `None` or the empty
string; otherwise an XML document — the generator's `startDocument` header,
then the payload inside the fixed `<root>` element
(`XmlMapper._root_element_name`). -/
def XmlMapper_format_data (data : PyVal) (charset : String) : String :=
  if isNoneOrEmptyStr data then ""
  else
    "<?xml version=\"1.0\" encoding=\"" ++ charset ++ "\"?>\n" ++
      "<root>" ++ to_xml Option.none data ++ "</root>"

/-! ### The registry and the negotiator (`DataMapperManager`)

A mapper object is identified by its class; `xmlMapper` stands for the XML
mapper instance registered at startup (`drest/__init__.py` instantiates it
from `drest.mappers.xmlmapper`, outside the three source files — only its
identity matters to negotiation).  The `_datamappers` dict becomes an
insertion-ordered association list with unique keys. -/

inductive Mapper where
  | dataMapper
  | jsonMapper
  | jsonDecimalMapper
  | xmlMapper
deriving DecidableEq, Repr

/-- Registry lookup, `name in self._datamappers` and
`self._datamappers[name]` in one step. -/
def assocLookup (dm : List (String × Mapper)) (k : String) : Option Mapper :=
  (dm.find? (fun p => p.1 == k)).map (·.2)

/-- Dict assignment `self._datamappers[key] = mapper`: overwrite an existing
entry, append a new one. -/
def assocSet (dm : List (String × Mapper)) (k : String) (m : Mapper) : List (String × Mapper) :=
  if dm.any (fun p => p.1 == k) then
    dm.map (fun p => if p.1 == k then (k, m) else p)
  else dm ++ [(k, m)]

/-- The manager's state: the registry and the manager-level default mapper
(class attribute `_default_mapper = DataMapper()`). -/
structure Manager where
  datamappers : List (String × Mapper)
  default_mapper : Mapper
deriving DecidableEq, Repr

/-- Source `DataMapperManager.register_mapper`: store under the content type
and, when given, also under the short name.  (`_check_mapper` validates the
duck-typed interface, which holds by construction here.) -/
def register_mapper (mgr : Manager) (mapper : Mapper) (content_type : String)
    (shortname : Option String) : Manager :=
  let dm := assocSet mgr.datamappers content_type mapper
  match shortname with
  | some s => { mgr with datamappers := assocSet dm s mapper }
  | Option.none => { mgr with datamappers := dm }

/-- The registrations performed by `drest/__init__.py::register_mappers` on
the fresh manager: plain text, XML, JSON, and the four tolerated JSON
aliases. -/
def drestManager : Manager :=
  let m : Manager := { datamappers := [], default_mapper := .dataMapper }
  let m := register_mapper m .dataMapper "text/plain" (some "text")
  let m := register_mapper m .xmlMapper "text/xml" (some "xml")
  let m := register_mapper m .jsonMapper "application/json" (some "json")
  let m := register_mapper m .jsonMapper "application/x-javascript" (some "json")
  let m := register_mapper m .jsonMapper "text/javascript" (some "json")
  let m := register_mapper m .jsonMapper "text/x-javascript" (some "json")
  let m := register_mapper m .jsonMapper "text/x-json" (some "json")
  m

/-- The observable request fields the negotiator reads:
`META['CONTENT_TYPE']`, `META['HTTP_ACCEPT']` (defaulted to the empty
string), `GET['format']`, and the path. -/
structure Request where
  meta_content_type : Option String
  meta_accept : String
  get_format : Option String
  path : String

/-- A Python optional string that is falsy: absent or empty. -/
def pyFalsyOptStr : Option String → Bool
  | Option.none => true
  | some s => s = ""

/-- Split a character list at every occurrence of the separator, Python
`str.split` with an explicit separator: empty input yields one empty
part. -/
def splitOnCharAux (sep : Char) : List Char → List Char → List (List Char)
  | [], acc => [acc.reverse]
  | c :: r, acc =>
      if c = sep then acc.reverse :: splitOnCharAux sep r []
      else splitOnCharAux sep r (c :: acc)

def splitOnChar (sep : Char) (cs : List Char) : List (List Char) :=
  splitOnCharAux sep cs []

/-- `str.strip()` over a character list. -/
def pyStripL (cs : List Char) : List Char :=
  (cs.dropWhile pyIsSpace).reverse.dropWhile pyIsSpace |>.reverse

/-- Modelled from the spec: `util.strip_charset` (`drest/util.py` is not
under src/) removes a trailing charset parameter from a content-type string
— the part before the first `;`, trimmed. -/
def strip_charset (content_type : String) : String :=
  String.mk (pyStripL (content_type.toList.takeWhile (fun c => c ≠ ';')))

/-- Per-mille weight of one accept-header entry parameter list: the value of
a `q=` parameter, 1000 when absent or unreadable. -/
def acceptQ (params : List (List Char)) : Nat :=
  match params.findSome? (fun p =>
    match matchKw (pyStripL p) ['q', '='] with
    | some qv =>
        match parseDec (String.mk qv) with
        | some (.finite neg c e) =>
            let scaled : Int := (if neg then -(c : Int) else (c : Int)) * 1000
            some (if e ≥ 0 then scaled * 10 ^ e.toNat else scaled / 10 ^ (-e).toNat)
        | _ => Option.none
    | Option.none => Option.none) with
  | some q => if q < 0 then 0 else if q > 1000 then 1000 else q.toNat
  | Option.none => 1000

/-- Stable insertion of one weighted entry into a list sorted by descending
weight: the new entry goes after existing entries of equal weight. -/
def insertByQ (e : String × Nat) : List (String × Nat) → List (String × Nat)
  | [] => [e]
  | x :: xs => if e.2 > x.2 then e :: x :: xs else x :: insertByQ e xs

/-- Modelled from the spec: `util.parse_accept_header` (`drest/util.py` is
not under src/) parses the raw Accept header of grammar
`type;q=value, type;q=value` into the ordered client preference list of
(media type, weight) pairs — entries split on commas, the media type taken
before the first `;`, weighted by the `q` parameter (default weight 1),
ordered by descending weight with the header order preserved among equal
weights; empty entries are dropped. -/
def parse_accept_header (s : String) : List (String × Nat) :=
  let entries := (splitOnChar ',' s.toList).filterMap fun part =>
    match splitOnChar ';' part with
    | [] => Option.none
    | t :: params =>
        let t := pyStripL t
        if t = [] then Option.none else some (String.mk t, acceptQ params)
  entries.foldl (fun acc e => insertByQ e acc) []

/-- Source `DataMapperManager._parse_access_header`: the first entry of the
parsed Accept header whose media type is registered, else `None`. -/
def parse_access_header (mgr : Manager) (r : Request) : Option String :=
  ((parse_accept_header r.meta_accept).find? fun p =>
    (assocLookup mgr.datamappers p.1).isSome).map (·.1)

def isWordChar (c : Char) : Bool := c.isAlphanum || c = '_'

/-- Source `_format_query_pattern`, the regex `.*\.(?P<format>\w{1,8})$`
applied with `match`: the text after the last dot must be one to eight word
characters reaching the end of the string (`$` also matches just before one
trailing newline), and `.*` forbids newlines before that dot. -/
def matchFormatExt (path : String) : Option String :=
  let cs := path.toList
  let cs := match cs.reverse with
    | '\n' :: r => r.reverse
    | _ => cs
  let ext := (cs.reverse.takeWhile (fun c => c ≠ '.')).reverse
  let before := cs.take (cs.length - ext.length)
  match before.reverse with
  | '.' :: pre =>
      if ext.length ≥ 1 ∧ ext.length ≤ 8 ∧ ext.all isWordChar ∧ pre.all (fun c => c ≠ '\n')
      then some (String.mk ext)
      else Option.none
  | _ => Option.none

/-- Source `DataMapperManager._get_short_name`: the `format` query parameter
when truthy, else the path extension when the pattern matches with a truthy
group, else the original falsy value. -/
def get_short_name (r : Request) : Option String :=
  let format := r.get_format
  if pyFalsyOptStr format then
    match matchFormatExt r.path with
    | some g => if g ≠ "" then some g else format
    | Option.none => format
  else format

/-- Source `DataMapperManager._get_mapper_name`: the content-type header
(charset stripped) when truthy, else the short name. -/
def get_mapper_name (r : Request) : Option String :=
  match r.meta_content_type with
  | Option.none => get_short_name r
  | some ct => if ct = "" then get_short_name r else some (strip_charset ct)

/-- The `default_formatter` argument of the selection entry points: absent,
a short-name string, or a mapper object. -/
inductive DefaultArg where
  | absent
  | name (s : String)
  | mapper (m : Mapper)
deriving DecidableEq, Repr

/-- Source `DataMapperManager._unknown_format` as a value:
`NotAcceptable('unknown data format: ' + format)`. -/
def unknown_format (format : String) : PyErr :=
  .notAcceptable ("unknown data format: " ++ format)

/-- Source `DataMapperManager._get_mapper` restricted to a truthy name: the
registered mapper, or the unknown-format error. -/
def lookup_mapper (mgr : Manager) (name : String) : Except PyErr Mapper :=
  match assocLookup mgr.datamappers name with
  | some m => .ok m
  | Option.none => .error (unknown_format name)

/-- Source `DataMapperManager._get_default_mapper`: a falsy resource default
yields the manager default; a string default resolves through `_get_mapper`
(with no further default); a mapper object is returned as is. -/
def get_default_mapper (mgr : Manager) (d : DefaultArg) : Except PyErr Mapper :=
  match d with
  | .absent => .ok mgr.default_mapper
  | .mapper m => .ok m
  | .name s => if s = "" then .ok mgr.default_mapper else lookup_mapper mgr s

/-- Source `DataMapperManager._get_mapper`: falsy name means the default,
otherwise registry lookup with the unknown-format error. -/
def get_mapper (mgr : Manager) (name : Option String) (d : DefaultArg) : Except PyErr Mapper :=
  if pyFalsyOptStr name then get_default_mapper mgr d
  else lookup_mapper mgr (name.getD "")

/-- Source `DataMapperManager.select_formatter`: the short name when truthy,
else the first registered Accept entry, resolved through `_get_mapper`. -/
def select_formatter (mgr : Manager) (r : Request) (d : DefaultArg) : Except PyErr Mapper :=
  let mapper_name := get_short_name r
  let mapper_name :=
    if pyFalsyOptStr mapper_name then parse_access_header mgr r else mapper_name
  get_mapper mgr mapper_name d

/-- Source `DataMapperManager.select_parser` (the inbound entry point): the
mapper name from the content-type header or the short name, resolved through
`_get_mapper`. -/
def selectParser (mgr : Manager) (r : Request) (d : DefaultArg) : Except PyErr Mapper :=
  get_mapper mgr (get_mapper_name r) d

/-- Source `DataMapperManager.get_mapper_by_content_type`: strip the charset
suffix, then resolve with no caller default. -/
def get_mapper_by_content_type (mgr : Manager) (content_type : String) : Except PyErr Mapper :=
  get_mapper mgr (some (strip_charset content_type)) .absent

/-! ### Builder invariants

The SAX events of a node are balanced: processing them leaves the suspended
stack exactly as it was, so a closing element always pops the frame its
opening pushed. -/

theorem endElement_of_stack_cons (st : BState) (name : String) (cur : PyVal)
    (tp : List String) (rest : List (PyVal × List String))
    (h : st.stack = (cur, tp) :: rest) :
    endElement st name =
      { stack := rest, current := element_to_py cur name (objOf st), text_parts := tp } := by
  obtain ⟨stk, c, t⟩ := st
  simp only at h
  subst h
  rfl

mutual

theorem runNode_stack : ∀ (n : Node) (st : BState), (runNode st n).stack = st.stack
  | .text s, st => rfl
  | .elem name attrs children, st => by
      have h : (runNodes (startElement st) children).stack =
          (st.current, st.text_parts) :: st.stack :=
        runNodes_stack children (startElement st)
      have hend := endElement_of_stack_cons (runNodes (startElement st) children) name
        st.current st.text_parts st.stack h
      simp only [runNode, hend]

theorem runNodes_stack : ∀ (ns : List Node) (st : BState), (runNodes st ns).stack = st.stack
  | [], st => rfl
  | n :: ns, st => by
      simp only [runNodes]
      rw [runNodes_stack ns, runNode_stack n]

end

/-- Processing one element from any state pops back to the same stack and
text fragments, merging the element's computed value into the suspended
current container. -/
theorem runNode_elem (name : String) (attrs : List (String × String))
    (children : List Node) (st : BState) :
    runNode st (.elem name attrs children) =
      { stack := st.stack
        current := element_to_py st.current name (objOf (runNodes (startElement st) children))
        text_parts := st.text_parts } := by
  have h : (runNodes (startElement st) children).stack =
      (st.current, st.text_parts) :: st.stack :=
    runNodes_stack children (startElement st)
  simp only [runNode,
    endElement_of_stack_cons (runNodes (startElement st) children) name
      st.current st.text_parts st.stack h]

/-- Merging into an empty mapping always stores the single entry. -/
theorem element_to_py_empty (name : String) (v : PyVal) :
    element_to_py (.dict []) name v = .dict [(name, v)] := rfl

/-- The top level of any decoded document is the root mapping with exactly
one entry, keyed by the root element's name. -/
theorem xml2obj_root (name : String) (attrs : List (String × String))
    (children : List Node) :
    xml2obj (.elem name attrs children) =
      .dict [(name, objOf (runNodes (startElement initState) children))] := by
  simp only [xml2obj, runNode_elem, element_to_py_empty, initState]

/-- Character events only accumulate text fragments. -/
theorem runNodes_texts (ts : List String) (st : BState) :
    runNodes st (ts.map Node.text) = { st with text_parts := st.text_parts ++ ts } := by
  induction ts generalizing st with
  | nil => simp only [List.map_nil, runNodes, List.append_nil]
  | cons t ts ih =>
      simp only [List.map_cons, runNodes, runNode, ih, characters, List.append_assoc,
        List.singleton_append]

mutual

theorem runNode_stripAttrs : ∀ (n : Node) (st : BState),
    runNode st (stripAttrsN n) = runNode st n
  | .text s, st => rfl
  | .elem name attrs children, st => by
      simp only [stripAttrsN, runNode, runNodes_stripAttrs children]

theorem runNodes_stripAttrs : ∀ (ns : List Node) (st : BState),
    runNodes st (stripAttrsL ns) = runNodes st ns
  | [], st => rfl
  | n :: ns, st => by
      simp only [stripAttrsL, runNodes, runNode_stripAttrs n, runNodes_stripAttrs ns]

end

/-! ### The claims -/

/-- The repeated-sibling document
`<root><item>1</item><item>2</item><item>3</item></root>`. -/
def docItems : Node :=
  .elem "root" [] [.elem "item" [] [.text "1"], .elem "item" [] [.text "2"],
    .elem "item" [] [.text "3"]]

/-- The mixed-leaf document `<root><name>Alice</name><age>30</age></root>`. -/
def docAlice : Node :=
  .elem "root" [] [.elem "name" [] [.text "Alice"], .elem "age" [] [.text "30"]]

/-- A document whose root element is not named `root`: `<foo>1</foo>`. -/
def docFoo : Node := .elem "foo" [] [.text "1"]

/-- Claim C1, counterexample: decoding
`<root><item>1</item><item>2</item><item>3</item></root>` does not yield the
mapping `\x7b"root": \x7b"item": [1, 2, 3]\x7d\x7d` the claim states. -/
theorem C1_counterexample :
    xml2obj docItems ≠
      .dict [("root", .dict [("item",
        .list [.dec (.finite false 1 0), .dec (.finite false 2 0),
          .dec (.finite false 3 0)])])] := by
  rw [show xml2obj docItems =
      .dict [("root", .list [.dec (.finite false 1 0), .dec (.finite false 2 0),
        .dec (.finite false 3 0)])] from rfl]
  intro h
  simp at h

/-- Claim C1 as amended: decoding
`<root><item>1</item><item>2</item><item>3</item></root>` yields
`\x7b"root": [1, 2, 3]\x7d`, the three values exact decimal numbers in
document order — on the first repetition of a sibling name the merge rule
replaces the parent mapping by the list of its values followed by the new
value, so the repeated name is dropped and the sequence is stored directly
under the root. -/
theorem C1_amended :
    xml2obj docItems =
      .dict [("root", .list [.dec (.finite false 1 0), .dec (.finite false 2 0),
        .dec (.finite false 3 0)])] := rfl

/-- Claim C2, counterexample: the JSON codec raises `BadRequest` on empty
input rather than returning an empty text value. -/
theorem C2_counterexample :
    JsonMapper_parse_data (some "") = .error (.badRequest "unable to parse data") ∧
      JsonMapper_parse_data (some "") ≠ .ok (.str "") := by
  refine ⟨rfl, fun h => ?_⟩
  rw [show JsonMapper_parse_data (some "") =
      .error (.badRequest "unable to parse data") from rfl] at h
  exact nomatch h

/-- Claim C2 as amended: only the plain-text codec returns an empty text
value on empty or null input; the JSON and arbitrary-precision JSON codecs,
whose overrides lack the base empty-input guard, raise instead — `BadRequest`
on the empty string, an uncaught `TypeError` on `None`. -/
theorem C2_amended :
    (∀ charset, DataMapper_parse_data Option.none charset = .ok (.str "") ∧
      DataMapper_parse_data (some "") charset = .ok (.str "")) ∧
    JsonMapper_parse_data (some "") = .error (.badRequest "unable to parse data") ∧
    JsonMapper_parse_data Option.none = .error .typeError ∧
    JsonDecimalMapper_parse_data (some "") = .error (.badRequest "unable to parse data") ∧
    JsonDecimalMapper_parse_data Option.none = .error .typeError :=
  ⟨fun _ => ⟨rfl, rfl⟩, rfl, rfl, rfl, rfl⟩

/-- Claim C6, counterexample: on `<foo>1</foo>` the decoder's top level is
the single-entry mapping keyed by the root name `foo`, but the XML codec
does not unwrap and return the content stored under that key — it
subscripts with the literal key `root` and fails with a `KeyError`. -/
theorem C6_counterexample :
    xml2obj docFoo = .dict [("foo", .dec (.finite false 1 0))] ∧
      XmlMapper_parse_data docFoo = .error (.keyError "root") ∧
      XmlMapper_parse_data docFoo ≠ .ok (.dec (.finite false 1 0)) := by
  refine ⟨rfl, rfl, fun h => ?_⟩
  rw [show XmlMapper_parse_data docFoo = .error (.keyError "root") from rfl] at h
  exact nomatch h

/-- Claim C6 as amended: for every well-formed document the decoder's top
level is a mapping with exactly one entry, keyed by the root element's name;
the XML codec's parse returns the content stored under the literal key
`root` — so it unwraps exactly the documents whose root element is named
`root` and fails with a `KeyError` on every other root name. -/
theorem C6_amended (name : String) (attrs : List (String × String))
    (children : List Node) :
    ∃ v, xml2obj (.elem name attrs children) = .dict [(name, v)] ∧
      XmlMapper_parse_data (.elem name attrs children) =
        (if name = "root" then .ok v else .error (.keyError "root")) := by
  refine ⟨objOf (runNodes (startElement initState) children),
    xml2obj_root name attrs children, ?_⟩
  unfold XmlMapper_parse_data
  rw [xml2obj_root name attrs children]
  by_cases h : name = "root"
  · simp [dictGet, List.find?, h]
  · have hb : (name == "root") = false := beq_eq_false_iff_ne.mpr h
    simp [dictGet, List.find?, hb, h]

/-- Claim C7: a leaf element (text-only children) decodes to its
concatenated, stripped text read as an exact decimal number when that
conversion succeeds and to the stripped string itself otherwise (the empty
string when no text); in particular
`<root><name>Alice</name><age>30</age></root>` decodes with `age` an exact
number and `name` a string. -/
theorem C7_leaf_rule :
    (∀ (name : String) (attrs : List (String × String)) (ts : List String),
      xml2obj (.elem name attrs (ts.map Node.text)) =
        .dict [(name,
          match parseDec (pyStrip (String.join ts)) with
          | some d => PyVal.dec d
          | Option.none => PyVal.str (pyStrip (String.join ts)))]) ∧
    xml2obj docAlice =
      .dict [("root", .dict [("name", .str "Alice"),
        ("age", .dec (.finite false 30 0))])] := by
  refine ⟨fun name attrs ts => ?_, rfl⟩
  rw [xml2obj_root, runNodes_texts]
  simp [objOf, truthy, leafValue, startElement, initState]

/-- Claim C8: formatting the exact decimal `10.10` through the
arbitrary-precision JSON codec and parsing the result back returns exactly
the decimal `10.10` (coefficient 1010, exponent -2), not the binary
floating-point approximation `10.099999999999999`. -/
theorem C8_decimal_roundtrip :
    JsonDecimalMapper_format_data (.dec (.finite false 1010 (-2))) = "10.10" ∧
    JsonDecimalMapper_parse_data
        (some (JsonDecimalMapper_format_data (.dec (.finite false 1010 (-2))))) =
      .ok (.dec (.finite false 1010 (-2))) ∧
    JsonDecimalMapper_parse_data
        (some (JsonDecimalMapper_format_data (.dec (.finite false 1010 (-2))))) ≠
      .ok (.dec (.finite false 10099999999999999 (-15))) := by
  refine ⟨rfl, rfl, fun h => ?_⟩
  rw [show JsonDecimalMapper_parse_data
      (some (JsonDecimalMapper_format_data (.dec (.finite false 1010 (-2))))) =
      .ok (.dec (.finite false 1010 (-2))) from rfl] at h
  simp at h

/-- Claim C9: for every codec, formatting a `None` payload or an
empty-string payload produces the empty string, never the text `null` and
never an omitted output. -/
theorem C9_empty_format (charset : String) :
    DataMapper_format_data .none charset = "" ∧
    DataMapper_format_data (.str "") charset = "" ∧
    JsonMapper_format_data .none = "" ∧
    JsonMapper_format_data (.str "") = "" ∧
    JsonDecimalMapper_format_data .none = "" ∧
    JsonDecimalMapper_format_data (.str "") = "" ∧
    XmlMapper_format_data .none charset = "" ∧
    XmlMapper_format_data (.str "") charset = "" :=
  ⟨rfl, rfl, rfl, rfl, rfl, rfl, rfl, rfl⟩

/-- Claim C10: XML decoding ignores element attributes — erasing every
attribute of a document leaves the decoded value unchanged, so the result is
determined by element names and character data alone. -/
theorem C10_attrs_ignored (doc : Node) : xml2obj (stripAttrsN doc) = xml2obj doc := by
  unfold xml2obj
  rw [runNode_stripAttrs]

/-- A truthy `format` query parameter makes the short name that parameter. -/
theorem get_short_name_of_format (r : Request) (s : String)
    (hs : r.get_format = some s) (hne : s ≠ "") : get_short_name r = some s := by
  unfold get_short_name
  rw [hs]
  simp [pyFalsyOptStr, hne]

/-- Claim C3: when a request carries both a truthy short-name signal (the
`format` query parameter) naming a registered codec and an Accept header
naming a different registered content type, the formatter selection returns
the codec named by the short name — the short name takes precedence over the
Accept header. -/
theorem C3_short_name_beats_accept (mgr : Manager) (r : Request) (d : DefaultArg)
    (s t : String) (mp m2 : Mapper)
    (hs : r.get_format = some s) (hne : s ≠ "")
    (hreg : assocLookup mgr.datamappers s = some mp)
    (ht : t ∈ (parse_accept_header r.meta_accept).map Prod.fst)
    (htreg : assocLookup mgr.datamappers t = some m2) (hdiff : t ≠ s) :
    select_formatter mgr r d = .ok mp := by
  unfold select_formatter
  rw [get_short_name_of_format r s hs hne]
  simp [pyFalsyOptStr, hne, get_mapper, lookup_mapper, hreg]

/-- Claim C3, witness: with the startup registry, `format=json` together
with `Accept: text/xml` selects the JSON codec. -/
theorem C3_witness :
    select_formatter drestManager
      { meta_content_type := Option.none, meta_accept := "text/xml",
        get_format := some "json", path := "/x" } .absent = .ok .jsonMapper :=
  C3_short_name_beats_accept drestManager _ .absent "json" "text/xml"
    .jsonMapper .xmlMapper rfl (by decide) rfl (by decide) rfl (by decide)

/-- Claim C4: a truthy explicit format name absent from the registry makes
both plain resolution and formatter selection fail with `NotAcceptable`
carrying the message `unknown data format: ` followed by the requested
name. -/
theorem C4_unknown_format (mgr : Manager) (r : Request) (d : DefaultArg) (s : String)
    (hs : r.get_format = some s) (hne : s ≠ "")
    (hreg : assocLookup mgr.datamappers s = Option.none) :
    get_mapper mgr (some s) d =
        .error (.notAcceptable ("unknown data format: " ++ s)) ∧
      select_formatter mgr r d =
        .error (.notAcceptable ("unknown data format: " ++ s)) := by
  have hres : get_mapper mgr (some s) d =
      .error (.notAcceptable ("unknown data format: " ++ s)) := by
    simp [get_mapper, pyFalsyOptStr, hne, lookup_mapper, hreg, unknown_format]
  refine ⟨hres, ?_⟩
  unfold select_formatter
  rw [get_short_name_of_format r s hs hne]
  simpa [pyFalsyOptStr, hne] using hres

/-- Claim C4, witness: with the startup registry, `format=vnd.nonexistent`
makes formatter selection raise `NotAcceptable` whose message contains the
requested name. -/
theorem C4_witness :
    select_formatter drestManager
      { meta_content_type := Option.none, meta_accept := "",
        get_format := some "vnd.nonexistent", path := "/x" } .absent =
      .error (.notAcceptable ("unknown data format: " ++ "vnd.nonexistent")) :=
  (C4_unknown_format drestManager _ .absent "vnd.nonexistent" rfl (by decide)
    (by decide)).2

/-- Claim C5: a request with no content-type signal, no `format` query
parameter and a path with no one-to-eight-word-character extension makes the
inbound selection return the configured default codec — the caller-supplied
default codec when one is given, the manager-level default otherwise — and
never an error. -/
theorem C5_default_fallback (mgr : Manager) (r : Request) (d : Option Mapper)
    (hct : pyFalsyOptStr r.meta_content_type = true)
    (hfmt : pyFalsyOptStr r.get_format = true)
    (hext : matchFormatExt r.path = Option.none) :
    selectParser mgr r (match d with | some m => .mapper m | Option.none => .absent) =
      .ok (d.getD mgr.default_mapper) := by
  have hshort : get_short_name r = r.get_format := by
    simp [get_short_name, hfmt, hext]
  have hname : get_mapper_name r = r.get_format := by
    unfold get_mapper_name
    match hc : r.meta_content_type with
    | Option.none => exact hshort
    | some ct =>
        rw [hc] at hct
        simp [pyFalsyOptStr] at hct
        simp [hct, hshort]
  unfold selectParser
  rw [hname]
  cases d with
  | none => simp [get_mapper, hfmt, get_default_mapper]
  | some m => simp [get_mapper, hfmt, get_default_mapper]

/-- Claim C5, witness: with the startup registry, a bare `/users` request
with no headers falls back to the manager default (the plain-text codec),
and to the caller default when one is supplied. -/
theorem C5_witness :
    selectParser drestManager
        { meta_content_type := Option.none, meta_accept := "",
          get_format := Option.none, path := "/users" } .absent =
      .ok .dataMapper ∧
    selectParser drestManager
        { meta_content_type := Option.none, meta_accept := "",
          get_format := Option.none, path := "/users" } (.mapper .xmlMapper) =
      .ok .xmlMapper :=
  ⟨C5_default_fallback drestManager _ Option.none rfl rfl (by decide),
    C5_default_fallback drestManager _ (some .xmlMapper) rfl rfl (by decide)⟩

end Drest
